import Mathlib

/-!
Verification development for the directional-change (DC) trend-following
backtester of this repository.  The two strategy variants are embedded
shallowly:

* `stepMax` / `runMax` model `MaximizePnLBot.run_backtest`
  (src/Assignment-1/Maximize_PnL.py).  Divisions there are unguarded, so
  the step function is `Option`-valued: `none` models a Python
  `ZeroDivisionError` (or the `IndexError` of `trades[-1]` on an empty
  ledger); the constructor's `ValueError` on an empty frame is modelled by
  `runMax` returning `none` on `[]`.
* `stepEnh` / `runEnh` model `AdvancedDCBot.run_backtest`
  (src/Assignment-1/enhanced_arbitrage_full.py), which guards its
  divisions and treats an empty frame as a no-op, hence is total.

Prices and indicator values are rationals.  `math.exp` is transcendental,
so it is carried as an abstract function field `Params.expf`; claims that
need facts about the exponential state them as hypotheses (antitonicity).
`sma` is `Option ℚ` because both scripts test it for NaN; the other
indicator columns are consumed without NaN checks after backfill/dropna,
so they are plain rationals.
-/

/-- Bar of the augmented frame: OHLC plus the indicator columns the state
machine reads.  `date` is an abstract timestamp (the enhanced variant
stores it in trade records); `sma` is `none` when the rolling mean is
still NaN. -/
structure Row where
  date : ℕ
  high : ℚ
  low : ℚ
  close : ℚ
  atr : ℚ
  sma : Option ℚ
  rsi : ℚ
  macd : ℚ
  macdsignal : ℚ
  stoch_k : ℚ
  stoch_d : ℚ
  adx : ℚ
  deriving DecidableEq, Repr

/-- Strategy mode enumeration, as in both scripts. -/
inductive StrategyMode where
  | FULL_AI
  | NO_CLASSIFIER
  | NO_VOLATILITY_FILTER
  | BASELINE
  deriving DecidableEq, Repr

/-- Strategy parameters consumed by `run_backtest`.  `expf` abstracts
`math.exp`. -/
structure Params where
  mode : StrategyMode
  dc_threshold : ℚ
  volatility_threshold : ℚ
  volume : ℚ
  y_value : ℚ
  rsi_overbought : ℚ
  expf : ℚ → ℚ

/-- Mode-to-boolean mapping `use_volatility_filter` (identical in both
scripts). -/
def useVolatilityFilter (p : Params) : Bool :=
  p.mode = StrategyMode.FULL_AI ∨ p.mode = StrategyMode.NO_CLASSIFIER

/-- Mode-to-boolean mapping `use_classifier` (identical in both
scripts). -/
def useClassifier (p : Params) : Bool :=
  p.mode = StrategyMode.FULL_AI ∨ p.mode = StrategyMode.NO_VOLATILITY_FILTER

/-- Dynamic exit threshold `dc_threshold * y_value * exp(-max_overshoot)`
(identical expression in both scripts). -/
def dynamicExitThreshold (p : Params) (mo : ℚ) : ℚ :=
  p.dc_threshold * p.y_value * p.expf (-mo)

/-- Relaxed confirmation expression of Maximize_PnL.py lines 155-159:
`(high > sma if not isnan(sma) else True) and rsi < rsi_overbought and
adx > 10`. -/
def relaxedPass (p : Params) (r : Row) : Bool :=
  (match r.sma with
   | some v => decide (r.high > v)
   | none => true)
  && decide (r.rsi < p.rsi_overbought)
  && decide (r.adx > 10)

/-- Strict confirmation expression of Maximize_PnL.py lines 161-167; a
NaN `sma` makes `high > sma` false in Python. -/
def strictPassMax (p : Params) (r : Row) : Bool :=
  (match r.sma with
   | some v => decide (r.high > v)
   | none => false)
  && decide (r.rsi < p.rsi_overbought)
  && decide (r.macd > r.macdsignal)
  && decide (r.stoch_k > r.stoch_d)
  && decide (r.adx > 10)

/-- Effective `classifier_pass` of Maximize_PnL.py: the relaxed
expression is computed unconditionally and overwritten by the strict one
when the classifier is enabled. -/
def classifierPassMax (p : Params) (r : Row) : Bool :=
  if useClassifier p then strictPassMax p r else relaxedPass p r

/-- Strict confirmation expression of enhanced_arbitrage_full.py lines
138-151, with ADX floor 25; `sma` is the already-unwrapped rolling mean
(the variant skips NaN-sma rows before reaching this point). -/
def strictPassEnh (p : Params) (r : Row) (sma : ℚ) : Bool :=
  decide (r.high > sma)
  && decide (r.rsi < p.rsi_overbought)
  && decide (r.macd > r.macdsignal)
  && decide (r.stoch_k > r.stoch_d)
  && decide (r.adx > 25)

/-- Effective `classifier_pass` of enhanced_arbitrage_full.py: `True`
unconditionally when the classifier is disabled. -/
def classifierPassEnh (p : Params) (r : Row) (sma : ℚ) : Bool :=
  if useClassifier p then strictPassEnh p r sma else true

/-- Exit fields added to a Maximize_PnL.py trade dict on close. -/
structure MaxExit where
  exit_price : ℚ
  pnl : ℚ
  exit_idx : ℕ
  deriving DecidableEq, Repr

/-- Trade dict of Maximize_PnL.py: `{entry_price, entry_idx}` at entry,
exit fields added when closed. -/
structure MaxTrade where
  entry_price : ℚ
  entry_idx : ℕ
  exit : Option MaxExit
  deriving DecidableEq, Repr

/-- Mutable state of `MaximizePnLBot` during `run_backtest`. -/
structure MaxState where
  current_trend : Int
  last_extreme : ℚ
  max_overshoot : ℚ
  is_position_open : Bool
  entry_price : ℚ
  is_trading_paused : Bool
  total_pnl : ℚ
  trades : List MaxTrade
  deriving DecidableEq, Repr

/-- `self.trades[-1].update(...)`: update the last ledger entry with exit
fields; `none` models the `IndexError` Python raises on an empty list. -/
def updateLast (ts : List MaxTrade) (e : MaxExit) : Option (List MaxTrade) :=
  match ts with
  | [] => none
  | [t] => some [{ t with exit := some e }]
  | t :: u :: rest => (updateLast (u :: rest) e).map (t :: ·)

/-- Down-state body of Maximize_PnL.py lines 148-180, applied to the
state after the extremum update: reversal-candidate test, pause
suppression, confirmation, and entry.  `none` models the
`ZeroDivisionError` of the unguarded `(high - old_extreme) / old_extreme`
when the extremum is zero. -/
def stepMaxDown (p : Params) (u : MaxState) (i : ℕ) (r : Row) : Option MaxState :=
  if r.high ≥ u.last_extreme * (1 + p.dc_threshold) then
    if u.is_trading_paused then some u
    else if classifierPassMax p r then
      if u.last_extreme = 0 then none
      else some { u with
        entry_price := r.high
        is_position_open := true
        last_extreme := r.high
        max_overshoot := max u.max_overshoot ((r.high - u.last_extreme) / u.last_extreme)
        current_trend := 1
        trades := u.trades ++ [{ entry_price := r.high, entry_idx := i, exit := none }] }
    else some u
  else some u

/-- Up-state body of Maximize_PnL.py lines 184-201, applied to the state
after the extremum update: overshoot update, trailing-stop test, and
close.  `none` models the `ZeroDivisionError` of the unguarded
`(high - entry_price) / entry_price` when the entry price is zero, and
the `IndexError` of `trades[-1]` on an empty ledger. -/
def stepMaxUp (p : Params) (u : MaxState) (i : ℕ) (r : Row) : Option MaxState :=
  if u.is_position_open then
    if u.entry_price = 0 then none
    else
      let mo := max u.max_overshoot ((r.high - u.entry_price) / u.entry_price)
      let s2 := { u with max_overshoot := mo }
      if r.low ≤ s2.last_extreme * (1 - dynamicExitThreshold p mo) then
        let pnl := (r.low - s2.entry_price) * p.volume
        match updateLast s2.trades { exit_price := r.low, pnl := pnl, exit_idx := i } with
        | none => none
        | some ts => some { s2 with
            total_pnl := s2.total_pnl + pnl
            trades := ts
            is_position_open := false
            current_trend := -1
            last_extreme := r.low }
      else some s2
  else some u

/-- Trend logic of Maximize_PnL.py lines 145-201 (everything after the
volatility gate): the running extremum is updated first, then the
Down-state or Up-state body runs. -/
def stepMaxTrend (p : Params) (s : MaxState) (i : ℕ) (r : Row) :
    Option MaxState :=
  if s.current_trend = -1 then
    stepMaxDown p
      (if r.low < s.last_extreme then { s with last_extreme := r.low } else s) i r
  else
    stepMaxUp p
      (if r.high > s.last_extreme then { s with last_extreme := r.high } else s) i r

/-- One loop iteration of `MaximizePnLBot.run_backtest` at positional
index `i`: volatility gate (lines 138-143) then trend logic. -/
def stepMax (p : Params) (s : MaxState) (i : ℕ) (r : Row) : Option MaxState :=
  if useVolatilityFilter p then
    if r.atr > p.volatility_threshold then
      some { s with is_trading_paused := true }
    else
      stepMaxTrend p { s with is_trading_paused := false } i r
  else
    stepMaxTrend p s i r

/-- Initial `MaximizePnLBot` state built in `__init__` from the first
bar's low; `max_overshoot` starts at the floor 0.0001. -/
def initMaxState (b0 : Row) : MaxState :=
  { current_trend := -1
    last_extreme := b0.low
    max_overshoot := 1 / 10000
    is_position_open := false
    entry_price := 0
    is_trading_paused := false
    total_pnl := 0
    trades := [] }

/-- Bar loop of `MaximizePnLBot.run_backtest`, threading the positional
index. -/
def runMaxLoop (p : Params) (s : MaxState) (i : ℕ) : List Row → Option MaxState
  | [] => some s
  | r :: rest =>
    match stepMax p s i r with
    | none => none
    | some s2 => runMaxLoop p s2 (i + 1) rest

/-- State after the bar loop of `MaximizePnLBot.run_backtest` (before the
force-close block); `none` on `[]` models the constructor's `ValueError`
on an empty frame. -/
def runMaxLoopState (p : Params) (bars : List Row) : Option MaxState :=
  match bars with
  | [] => none
  | b0 :: _ => runMaxLoop p (initMaxState b0) 0 bars

/-- Force-close block of Maximize_PnL.py lines 204-210: a still-open
position is closed at the final bar's close. -/
def finalizeMax (p : Params) (bars : List Row) (s : MaxState) : Option MaxState :=
  if s.is_position_open then
    match bars.getLast? with
    | none => none
    | some blast =>
      let pnl := (blast.close - s.entry_price) * p.volume
      match updateLast s.trades
          { exit_price := blast.close, pnl := pnl, exit_idx := bars.length - 1 } with
      | none => none
      | some ts => some { s with total_pnl := s.total_pnl + pnl, trades := ts }
  else some s

/-- Whole `MaximizePnLBot` run: construct, loop, force-close, and return
`(total_pnl, trades)`. -/
def runMax (p : Params) (bars : List Row) : Option (ℚ × List MaxTrade) :=
  match runMaxLoopState p bars with
  | none => none
  | some s =>
    match finalizeMax p bars s with
    | none => none
    | some s2 => some (s2.total_pnl, s2.trades)

/-- Exit fields of an enhanced-variant trade dict. -/
structure EnhExit where
  exit_date : ℕ
  exit_price : ℚ
  deriving DecidableEq, Repr

/-- Trade dict of enhanced_arbitrage_full.py: `{entry_date, entry_price,
pnl: 0}` at entry; `exit_date`, `exit_price` added and `pnl` overwritten
on close. -/
structure EnhTrade where
  entry_date : ℕ
  entry_price : ℚ
  pnl : ℚ
  exit : Option EnhExit
  deriving DecidableEq, Repr

/-- Local state of `AdvancedDCBot.run_backtest` together with the bot's
ledger and PnL accumulator.  `trade = none` models the initial empty dict
`trade = {}`. -/
structure EnhState where
  current_trend : Int
  last_extreme_price : ℚ
  max_overshoot : ℚ
  is_position_open : Bool
  entry_price : ℚ
  is_trading_paused : Bool
  trade : Option EnhTrade
  total_pnl : ℚ
  trades : List EnhTrade
  deriving DecidableEq, Repr

/-- Volatility gate of enhanced_arbitrage_full.py lines 123-128: the two
toggling branches leave `is_trading_paused` equal to the high-volatility
test whenever they run. -/
def volGate (p : Params) (s : EnhState) (r : Row) : EnhState :=
  if useVolatilityFilter p then
    let hv := decide (r.atr > p.volatility_threshold)
    if hv && !s.is_trading_paused then { s with is_trading_paused := true }
    else if !hv && s.is_trading_paused then { s with is_trading_paused := false }
    else s
  else s

/-- Stand-in for the fields of the empty dict `trade = {}`; only reached
on states where no position was ever opened, which the close paths
exclude. -/
def emptyEnhTrade : EnhTrade :=
  { entry_date := 0, entry_price := 0, pnl := 0, exit := none }

/-- Down-state body of enhanced_arbitrage_full.py lines 133-174, applied
to the state after the extremum update; the entry-overshoot division
carries the script's explicit `old_extreme != 0` guard. -/
def stepEnhDown (p : Params) (u : EnhState) (r : Row) (sma : ℚ) : EnhState :=
  if r.high ≥ u.last_extreme_price * (1 + p.dc_threshold) then
    if u.is_trading_paused then u
    else if classifierPassEnh p r sma then
      { u with
        entry_price := r.high
        is_position_open := true
        current_trend := 1
        last_extreme_price := r.high
        max_overshoot := max u.max_overshoot
          (if u.last_extreme_price ≠ 0 then
            (r.high - u.last_extreme_price) / u.last_extreme_price else 0)
        trade := some { entry_date := r.date, entry_price := r.high, pnl := 0, exit := none } }
    else u
  else u

/-- Up-state body of enhanced_arbitrage_full.py lines 179-203, applied to
the state after the extremum update; the position-overshoot division
carries the script's explicit `entry_price != 0` guard. -/
def stepEnhUp (p : Params) (u : EnhState) (r : Row) : EnhState :=
  if u.is_position_open then
    let overshoot :=
      if u.entry_price ≠ 0 then (r.high - u.entry_price) / u.entry_price else 0
    let mo := max u.max_overshoot overshoot
    let s2 := { u with max_overshoot := mo }
    if r.low ≤ s2.last_extreme_price * (1 - dynamicExitThreshold p mo) then
      let pnl := (r.low - s2.entry_price) * p.volume
      let t0 := s2.trade.getD emptyEnhTrade
      let t := { t0 with
        pnl := pnl
        exit := some { exit_date := r.date, exit_price := r.low } }
      { s2 with
        total_pnl := s2.total_pnl + pnl
        trades := s2.trades ++ [t]
        is_position_open := false
        current_trend := -1
        last_extreme_price := r.low
        trade := some t }
    else s2
  else u

/-- Trend logic of enhanced_arbitrage_full.py lines 130-203 (after the
NaN-sma skip and the volatility gate); `sma` is the unwrapped rolling
mean of the current row.  The running extremum is updated first, then the
Down-state or Up-state body runs; a trend value other than -1 or 1 falls
through the `if`/`elif` untouched. -/
def stepEnhTrend (p : Params) (s : EnhState) (r : Row) (sma : ℚ) : EnhState :=
  if s.current_trend = -1 then
    stepEnhDown p
      (if r.low < s.last_extreme_price then { s with last_extreme_price := r.low } else s) r sma
  else if s.current_trend = 1 then
    stepEnhUp p
      (if r.high > s.last_extreme_price then { s with last_extreme_price := r.high } else s) r
  else s

/-- One loop iteration of `AdvancedDCBot.run_backtest`: skip the row when
its sma is NaN, otherwise gate then trend logic. -/
def stepEnh (p : Params) (s : EnhState) (r : Row) : EnhState :=
  match r.sma with
  | none => s
  | some sma => stepEnhTrend p (volGate p s r) r sma

/-- Initial local state of `AdvancedDCBot.run_backtest`, built from the
first bar's low. -/
def initEnhState (b0 : Row) : EnhState :=
  { current_trend := -1
    last_extreme_price := b0.low
    max_overshoot := 1 / 10000
    is_position_open := false
    entry_price := 0
    is_trading_paused := false
    trade := none
    total_pnl := 0
    trades := [] }

/-- State after the bar loop of `AdvancedDCBot.run_backtest` over `bars`,
starting from the state built from `b0`. -/
def runEnhState (p : Params) (b0 : Row) (bars : List Row) : EnhState :=
  List.foldl (stepEnh p) (initEnhState b0) bars

/-- Whole `AdvancedDCBot.run_backtest`: an empty frame is an explicit
no-op returning `(0.0, [])`; afterwards a still-open position is
force-closed at the final bar's close and appended. -/
def runEnh (p : Params) (bars : List Row) : ℚ × List EnhTrade :=
  match bars with
  | [] => (0, [])
  | b0 :: rest =>
    let s := runEnhState p b0 (b0 :: rest)
    if s.is_position_open then
      let blast := List.getLastD (b0 :: rest) b0
      let pnl := (blast.close - s.entry_price) * p.volume
      let t0 := s.trade.getD emptyEnhTrade
      let t := { t0 with
        pnl := pnl
        exit := some { exit_date := blast.date, exit_price := blast.close } }
      (s.total_pnl + pnl, s.trades ++ [t])
    else (s.total_pnl, s.trades)

/-!
Concrete configurations and bars used by counterexamples and witnesses.
-/

/-- Concrete stand-in for `math.exp` (its value is irrelevant to the
facts below). -/
def cexpf : ℚ → ℚ := fun _ => 1 / 2

/-- Full-AI configuration: both filters enabled. -/
def c1p : Params :=
  { mode := StrategyMode.FULL_AI, dc_threshold := 1 / 100, volatility_threshold := 1,
    volume := 1, y_value := 1, rsi_overbought := 70, expf := cexpf }

/-- Reversal-candidate bar passing every strict confirmation except
`adx > 25` (its ADX is 20). -/
def c1row : Row :=
  { date := 0, high := 2, low := 1, close := 2, atr := 0, sma := some 1, rsi := 50,
    macd := 1, macdsignal := 0, stoch_k := 2, stoch_d := 1, adx := 20 }

/-- First bar with NaN sma: the enhanced variant skips it, so its low
only seeds the initial extremum. -/
def c2b0 : Row :=
  { date := 0, high := 0, low := 10, close := 0, atr := 0, sma := none, rsi := 0,
    macd := 0, macdsignal := 0, stoch_k := 0, stoch_d := 0, adx := 0 }

/-- High-volatility bar (ATR 100) with a lower low than the seeded
extremum. -/
def c2b1 : Row :=
  { date := 1, high := 5, low := 5, close := 5, atr := 100, sma := some 1, rsi := 0,
    macd := 0, macdsignal := 0, stoch_k := 0, stoch_d := 0, adx := 0 }

/-- Classifier-disabled configuration (volatility filter still on). -/
def c4p : Params :=
  { mode := StrategyMode.NO_CLASSIFIER, dc_threshold := 1 / 100, volatility_threshold := 1,
    volume := 1, y_value := 1, rsi_overbought := 70, expf := cexpf }

/-- Reversal-candidate bar failing the relaxed tier on every leg:
`high = 2` is below `sma = 100` and `rsi = 100` is not below 70. -/
def c4b : Row :=
  { date := 0, high := 2, low := 1, close := 3, atr := 0, sma := some 100, rsi := 100,
    macd := 0, macdsignal := 0, stoch_k := 0, stoch_d := 0, adx := 0 }

/-- Baseline configuration: no volatility filter, no classifier. -/
def c5p : Params :=
  { mode := StrategyMode.BASELINE, dc_threshold := 1 / 100, volatility_threshold := 1,
    volume := 1, y_value := 1, rsi_overbought := 70, expf := cexpf }

/-- Quiet first bar seeding the extremum at 100. -/
def c5b0 : Row :=
  { date := 0, high := 100, low := 100, close := 100, atr := 0, sma := none, rsi := 0,
    macd := 0, macdsignal := 0, stoch_k := 0, stoch_d := 0, adx := 20 }

/-- Bar triggering an entry at 102 (above 100·1.01). -/
def c5b1 : Row :=
  { date := 1, high := 102, low := 101, close := 102, atr := 0, sma := none, rsi := 0,
    macd := 0, macdsignal := 0, stoch_k := 0, stoch_d := 0, adx := 20 }

/-- Final bar whose low 102 stays above the trailing stop but whose close
is 50, so the position is force-closed at 50. -/
def c5b2A : Row :=
  { date := 2, high := 102, low := 102, close := 50, atr := 0, sma := none, rsi := 0,
    macd := 0, macdsignal := 0, stoch_k := 0, stoch_d := 0, adx := 20 }

/-- Final bar whose low 50 crosses the trailing stop, closing the
position by signal at exactly the same price and index. -/
def c5b2B : Row :=
  { date := 2, high := 102, low := 50, close := 50, atr := 0, sma := none, rsi := 0,
    macd := 0, macdsignal := 0, stoch_k := 0, stoch_d := 0, adx := 20 }

/-- Bar whose low is 0: it seeds a zero extremum and fires a reversal
candidate, reaching the entry-overshoot division. -/
def c8b : Row :=
  { date := 0, high := 1, low := 0, close := 1, atr := 0, sma := some (1 / 2), rsi := 0,
    macd := 0, macdsignal := 0, stoch_k := 0, stoch_d := 0, adx := 20 }

def c3s : MaxState :=
  { current_trend := 1, last_extreme := 102, max_overshoot := 1 / 50,
    is_position_open := true, entry_price := 102, is_trading_paused := false,
    total_pnl := 0, trades := [⟨102, 1, none⟩] }

def c5sA : MaxState :=
  { current_trend := 1, last_extreme := 102, max_overshoot := 1 / 50,
    is_position_open := true, entry_price := 102, is_trading_paused := false,
    total_pnl := 0, trades := [⟨102, 1, none⟩] }

/-- Ledger predicate: every trade is closed and its recorded pnl equals
`(exit_price - entry_price) * volume`. -/
def maxClosedOK (p : Params) (ts : List MaxTrade) : Prop :=
  ∀ t ∈ ts, ∃ e, t.exit = some e ∧ e.pnl = (e.exit_price - t.entry_price) * p.volume

/-- Realized pnl a Maximize_PnL trade contributes (0 while open). -/
def maxPnlOf (t : MaxTrade) : ℚ :=
  match t.exit with
  | some e => e.pnl
  | none => 0

/-- Sum of realized pnl over a Maximize_PnL ledger. -/
def maxPnlSum (ts : List MaxTrade) : ℚ := (ts.map maxPnlOf).sum

/-- Number of open (exit-less) trades in a Maximize_PnL ledger. -/
def maxOpenCount (ts : List MaxTrade) : ℕ :=
  (ts.filter (fun t => t.exit.isNone)).length

/-- Run invariant of `MaximizePnLBot`: the open flag implies Up trend,
an open position is exactly the last ledger entry (exit-less, carrying
the live entry price) with all earlier trades closed, a clear flag means
the whole ledger is closed, and the accumulator equals the ledger sum. -/
def MaxInv (p : Params) (s : MaxState) : Prop :=
  (s.is_position_open = true → s.current_trend = 1) ∧
  (s.is_position_open = true → ∃ ts t, s.trades = ts ++ [t] ∧ t.exit = none ∧
     t.entry_price = s.entry_price ∧ maxClosedOK p ts) ∧
  (s.is_position_open = false → maxClosedOK p s.trades) ∧
  s.total_pnl = maxPnlSum s.trades

/-- Ledger predicate for the enhanced variant: every appended trade is
closed and its `pnl` field equals `(exit_price - entry_price) * volume`. -/
def enhClosedOK (p : Params) (ts : List EnhTrade) : Prop :=
  ∀ t ∈ ts, ∃ e, t.exit = some e ∧ t.pnl = (e.exit_price - t.entry_price) * p.volume

/-- Sum of the `pnl` fields of an enhanced-variant ledger. -/
def enhPnlSum (ts : List EnhTrade) : ℚ := (ts.map EnhTrade.pnl).sum

/-- Run invariant of `AdvancedDCBot`: the open flag implies Up trend and
a live trade dict carrying the entry price; the ledger holds only closed
trades and the accumulator equals its sum. -/
def EnhInv (p : Params) (s : EnhState) : Prop :=
  (s.is_position_open = true → s.current_trend = 1) ∧
  (s.is_position_open = true → ∃ t, s.trade = some t ∧ t.entry_price = s.entry_price) ∧
  enhClosedOK p s.trades ∧
  s.total_pnl = enhPnlSum s.trades

def c1sAfter : MaxState :=
  { current_trend := 1, last_extreme := 2, max_overshoot := 1, is_position_open := true,
    entry_price := 2, is_trading_paused := false, total_pnl := 0, trades := [⟨2, 0, none⟩] }

/-- Claim C1 counterexample: with the classifier enabled (Full AI mode),
the Maximize_PnL variant opens a position on a reversal candidate whose
ADX is 20, which does not exceed 25 — its strict tier keeps the ADX floor
at 10, so the claim's "only if adx strictly exceeds 25" fails on that
variant. -/
theorem claim_C1_counterexample :
    useClassifier c1p = true ∧ c1row.adx = 20 ∧ ¬ (25 : ℚ) < c1row.adx ∧
    runMax c1p [c1row] =
      some (0, [{ entry_price := 2, entry_idx := 0,
                  exit := some { exit_price := 2, pnl := 0, exit_idx := 0 } }]) := by
  exact ⟨by with_unfolding_all rfl, by with_unfolding_all rfl, by decide,
    by with_unfolding_all rfl⟩

/-- Claim C2 counterexample: in the enhanced variant a bar whose ATR
exceeds the threshold still runs the trend logic — on the paused bar the
Down-state extremum drops from 10 to 5, refuting "skips all trend logic
for that bar entirely (no extremum update)". -/
theorem claim_C2_counterexample :
    useVolatilityFilter c1p = true ∧ c2b1.atr > c1p.volatility_threshold ∧
    (initEnhState c2b0).last_extreme_price = 10 ∧
    (runEnhState c1p c2b0 [c2b0, c2b1]).is_trading_paused = true ∧
    (runEnhState c1p c2b0 [c2b0, c2b1]).last_extreme_price = 5 := by
  exact ⟨by with_unfolding_all rfl, by decide, by with_unfolding_all rfl,
    by with_unfolding_all rfl, by with_unfolding_all rfl⟩

/-- Claim C4 counterexample: with the classifier disabled the enhanced
variant opens a position although the relaxed tier fails (high 2 is below
sma 100 and rsi 100 is not below 70): its `classifier_pass` is
unconditionally true, so "opens if and only if the relaxed tier holds"
fails on that variant. -/
theorem claim_C4_counterexample :
    useClassifier c4p = false ∧ relaxedPass c4p c4b = false ∧
    runEnh c4p [c4b] =
      (1, [{ entry_date := 0, entry_price := 2, pnl := 1,
             exit := some { exit_date := 0, exit_price := 3 } }]) := by
  exact ⟨by with_unfolding_all rfl, by with_unfolding_all rfl, by with_unfolding_all rfl⟩

/-- Claim C5 counterexample: a force-closed run and a signal-closed run
produce byte-for-byte identical outputs (same PnL, same trade record), so
no flag in the returned Trade marks a close as forced rather than
signal-triggered. -/
theorem claim_C5_counterexample :
    (runMaxLoopState c5p [c5b0, c5b1, c5b2A]).map MaxState.is_position_open = some true ∧
    (runMaxLoopState c5p [c5b0, c5b1, c5b2B]).map MaxState.is_position_open = some false ∧
    runMax c5p [c5b0, c5b1, c5b2A] = runMax c5p [c5b0, c5b1, c5b2B] ∧
    runMax c5p [c5b0, c5b1, c5b2A] =
      some (-52, [{ entry_price := 102, entry_idx := 1,
                    exit := some { exit_price := 50, pnl := -52, exit_idx := 2 } }]) := by
  exact ⟨by with_unfolding_all rfl, by with_unfolding_all rfl, by with_unfolding_all rfl,
    by with_unfolding_all rfl⟩

/-- Claim C8 counterexample: on a bar with a zero low the Maximize_PnL
variant reaches the unguarded entry-overshoot division with a zero
denominator and aborts (modelled `none`, a Python ZeroDivisionError),
while the enhanced variant's guard substitutes 0 and completes — so "every
division whose denominator could be zero is guarded" fails. -/
theorem claim_C8_counterexample :
    c8b.low = 0 ∧ (initMaxState c8b).last_extreme = 0 ∧
    runMax c5p [c8b] = none ∧
    runEnh c5p [c8b] =
      (0, [{ entry_date := 0, entry_price := 1, pnl := 0,
             exit := some { exit_date := 0, exit_price := 1 } }]) := by
  exact ⟨by with_unfolding_all rfl, by with_unfolding_all rfl, by with_unfolding_all rfl,
    by with_unfolding_all rfl⟩

/-- Claim C9 counterexample: the Maximize_PnL variant does not treat an
empty bar sequence as a no-op — its constructor raises ValueError
(modelled as `none`), a fatal error. -/
theorem claim_C9_counterexample : runMax c1p [] = none := by
  with_unfolding_all rfl

/-! Helper lemmas shared by several claims. -/

theorem stepMaxDown_paused (p : Params) (u : MaxState) (i : ℕ) (r : Row) (s' : MaxState)
    (h : stepMaxDown p u i r = some s') : s'.is_trading_paused = u.is_trading_paused := by
  unfold stepMaxDown at h
  repeat' split at h
  all_goals try exact Option.noConfusion h
  all_goals (injection h with h; subst h; rfl)

theorem stepMaxUp_paused (p : Params) (u : MaxState) (i : ℕ) (r : Row) (s' : MaxState)
    (h : stepMaxUp p u i r = some s') : s'.is_trading_paused = u.is_trading_paused := by
  unfold stepMaxUp at h
  dsimp only at h
  repeat' split at h
  all_goals try exact Option.noConfusion h
  all_goals (injection h with h; subst h; rfl)

theorem stepMaxTrend_paused (p : Params) (s : MaxState) (i : ℕ) (r : Row) (s' : MaxState)
    (h : stepMaxTrend p s i r = some s') : s'.is_trading_paused = s.is_trading_paused := by
  unfold stepMaxTrend at h
  by_cases c1 : s.current_trend = -1
  · rw [if_pos c1] at h
    by_cases hlow : r.low < s.last_extreme
    · rw [if_pos hlow] at h
      have hq := stepMaxDown_paused p { s with last_extreme := r.low } i r s' h
      exact hq
    · rw [if_neg hlow] at h
      exact stepMaxDown_paused p s i r s' h
  · rw [if_neg c1] at h
    by_cases hh : r.high > s.last_extreme
    · rw [if_pos hh] at h
      have hq := stepMaxUp_paused p { s with last_extreme := r.high } i r s' h
      exact hq
    · rw [if_neg hh] at h
      exact stepMaxUp_paused p s i r s' h

theorem stepEnhDown_paused (p : Params) (u : EnhState) (r : Row) (smaq : ℚ) :
    (stepEnhDown p u r smaq).is_trading_paused = u.is_trading_paused := by
  unfold stepEnhDown
  repeat' split
  all_goals rfl

theorem stepEnhUp_paused (p : Params) (u : EnhState) (r : Row) :
    (stepEnhUp p u r).is_trading_paused = u.is_trading_paused := by
  unfold stepEnhUp
  dsimp only
  repeat' split
  all_goals rfl

theorem stepEnhTrend_paused (p : Params) (s : EnhState) (r : Row) (smaq : ℚ) :
    (stepEnhTrend p s r smaq).is_trading_paused = s.is_trading_paused := by
  unfold stepEnhTrend
  by_cases c1 : s.current_trend = -1
  · rw [if_pos c1]
    by_cases hlow : r.low < s.last_extreme_price
    · rw [if_pos hlow]
      have hq := stepEnhDown_paused p { s with last_extreme_price := r.low } r smaq
      exact hq
    · rw [if_neg hlow]
      exact stepEnhDown_paused p s r smaq
  · rw [if_neg c1]
    by_cases c2 : s.current_trend = 1
    · rw [if_pos c2]
      by_cases hh : r.high > s.last_extreme_price
      · rw [if_pos hh]
        have hq := stepEnhUp_paused p { s with last_extreme_price := r.high } r
        exact hq
      · rw [if_neg hh]
        exact stepEnhUp_paused p s r
    · rw [if_neg c2]

theorem volGate_paused (p : Params) (s : EnhState) (r : Row)
    (hv : useVolatilityFilter p = true) :
    (volGate p s r).is_trading_paused = decide (r.atr > p.volatility_threshold) := by
  unfold volGate
  by_cases ha : r.atr > p.volatility_threshold <;>
    cases hpause : s.is_trading_paused <;>
      simp [hv, ha, hpause]

theorem volGate_paused_true (p : Params) (s : EnhState) (r : Row)
    (hv : useVolatilityFilter p = true) (ha : r.atr > p.volatility_threshold) :
    volGate p s r = { s with is_trading_paused := true } := by
  unfold volGate
  cases hpause : s.is_trading_paused <;> simp [hv, ha, hpause]
  cases s
  simp_all

theorem stepMax_paused_skip (p : Params) (s : MaxState) (i : ℕ) (r : Row)
    (hv : useVolatilityFilter p = true) (ha : r.atr > p.volatility_threshold) :
    stepMax p s i r = some { s with is_trading_paused := true } := by
  unfold stepMax
  simp [hv, ha]

theorem stepMax_clear (p : Params) (s : MaxState) (i : ℕ) (r : Row) (s' : MaxState)
    (hv : useVolatilityFilter p = true) (ha : ¬ r.atr > p.volatility_threshold)
    (h : stepMax p s i r = some s') : s'.is_trading_paused = false := by
  unfold stepMax at h
  simp only [hv, if_true, ha, if_false, ite_true, ite_false] at h
  have hq := stepMaxTrend_paused p { s with is_trading_paused := false } i r s' h
  exact hq

theorem stepEnhUp_pause_irrel (p : Params) (u : EnhState) (r : Row) (b : Bool) :
    stepEnhUp p { u with is_trading_paused := b } r =
      { stepEnhUp p u r with is_trading_paused := b } := by
  unfold stepEnhUp
  dsimp only
  split_ifs <;> rfl

theorem stepEnhTrend_pause_irrel (p : Params) (s : EnhState) (r : Row) (smaq : ℚ) (b : Bool)
    (ht : ¬ s.current_trend = -1) :
    stepEnhTrend p { s with is_trading_paused := b } r smaq =
      { stepEnhTrend p s r smaq with is_trading_paused := b } := by
  unfold stepEnhTrend
  dsimp only
  rw [if_neg ht, if_neg ht]
  by_cases c2 : s.current_trend = 1
  · rw [if_pos c2, if_pos c2]
    by_cases hh : r.high > s.last_extreme_price
    · rw [if_pos hh, if_pos hh]
      have hq := stepEnhUp_pause_irrel p { s with last_extreme_price := r.high } r b
      exact hq
    · rw [if_neg hh, if_neg hh]
      exact stepEnhUp_pause_irrel p s r b
  · rw [if_neg c2, if_neg c2]

theorem stepEnh_paused_down (p : Params) (s : EnhState) (r : Row) (smaq : ℚ)
    (hv : useVolatilityFilter p = true) (ha : r.atr > p.volatility_threshold)
    (hsma : r.sma = some smaq) (ht : s.current_trend = -1) :
    (stepEnh p s r).is_trading_paused = true ∧
    (stepEnh p s r).last_extreme_price = min s.last_extreme_price r.low ∧
    (stepEnh p s r).trades = s.trades ∧
    (stepEnh p s r).is_position_open = s.is_position_open ∧
    (stepEnh p s r).current_trend = s.current_trend := by
  unfold stepEnh
  rw [hsma]
  rw [volGate_paused_true p s r hv ha]
  unfold stepEnhTrend
  dsimp only
  rw [if_pos ht]
  by_cases hlow : r.low < s.last_extreme_price
  · rw [if_pos hlow, min_eq_right (le_of_lt hlow)]
    unfold stepEnhDown
    dsimp only
    split_ifs <;> first
      | exact ⟨rfl, rfl, rfl, rfl, rfl⟩
      | simp_all
  · rw [if_neg hlow, min_eq_left (le_of_not_lt hlow)]
    unfold stepEnhDown
    dsimp only
    split_ifs <;> first
      | exact ⟨rfl, rfl, rfl, rfl, rfl⟩
      | simp_all

/-- Claim C2 (amended): with the volatility filter enabled and ATR above
the threshold, the Maximize_PnL variant sets paused and skips the bar's
trend logic entirely, clearing paused (which trend logic never touches)
when ATR is not above the threshold; the enhanced variant keeps paused
equal to the high-volatility test but suppresses only Down-state entry —
the extremum still updates on a paused bar and the Up-state exit logic is
entirely independent of the paused flag. -/
theorem claim_C2_theorem (p : Params) (r : Row) :
    (∀ (s : MaxState) (i : ℕ), useVolatilityFilter p = true →
       r.atr > p.volatility_threshold →
       stepMax p s i r = some { s with is_trading_paused := true }) ∧
    (∀ (s : MaxState) (i : ℕ) (s' : MaxState), useVolatilityFilter p = true →
       ¬ r.atr > p.volatility_threshold → stepMax p s i r = some s' →
       s'.is_trading_paused = false) ∧
    (∀ (s : EnhState) (smaq : ℚ), useVolatilityFilter p = true → r.sma = some smaq →
       (stepEnh p s r).is_trading_paused = decide (r.atr > p.volatility_threshold)) ∧
    (∀ (s : EnhState) (smaq : ℚ), useVolatilityFilter p = true →
       r.atr > p.volatility_threshold → r.sma = some smaq → s.current_trend = -1 →
       (stepEnh p s r).last_extreme_price = min s.last_extreme_price r.low ∧
       (stepEnh p s r).trades = s.trades ∧
       (stepEnh p s r).is_position_open = s.is_position_open) ∧
    (∀ (s : EnhState) (smaq : ℚ) (b : Bool), ¬ s.current_trend = -1 →
       stepEnhTrend p { s with is_trading_paused := b } r smaq =
         { stepEnhTrend p s r smaq with is_trading_paused := b }) := by
  refine ⟨?_, ?_, ?_, ?_, ?_⟩
  · intro s i hv ha
    exact stepMax_paused_skip p s i r hv ha
  · intro s i s' hv ha h
    exact stepMax_clear p s i r s' hv ha h
  · intro s smaq hv hsma
    unfold stepEnh
    rw [hsma, stepEnhTrend_paused, volGate_paused p s r hv]
  · intro s smaq hv ha hsma ht
    obtain ⟨h1, h2, h3, h4, h5⟩ := stepEnh_paused_down p s r smaq hv ha hsma ht
    exact ⟨h2, h3, h4⟩
  · intro s smaq b ht
    exact stepEnhTrend_pause_irrel p s r smaq b ht

/-- Claim C2 witness: the Maximize_PnL skip conjunct evaluated on a
concrete high-ATR bar. -/
theorem claim_C2_witness :
    stepMax c1p (initMaxState c2b1) 0 c2b1 =
      some { initMaxState c2b1 with is_trading_paused := true } :=
  (claim_C2_theorem c1p c2b1).1 (initMaxState c2b1) 0 (by decide) (by decide)

theorem stepMaxDown_entry_count (p : Params) (u : MaxState) (i : ℕ) (r : Row)
    (hp : u.is_trading_paused = false)
    (hcand : u.last_extreme * (1 + p.dc_threshold) ≤ r.high)
    (hz : ¬ u.last_extreme = 0) :
    (stepMaxDown p u i r).map (fun x => x.trades.length) =
      some (if classifierPassMax p r then u.trades.length + 1 else u.trades.length) := by
  unfold stepMaxDown
  rw [if_pos hcand, if_neg (by simp [hp])]
  by_cases hcls : classifierPassMax p r = true
  · rw [if_pos hcls, if_neg hz, hcls]
    simp
  · rw [if_neg hcls]
    simp [hcls]

theorem stepMaxTrend_entry_count (p : Params) (s : MaxState) (i : ℕ) (r : Row)
    (ht : s.current_trend = -1) (hp : s.is_trading_paused = false)
    (hcand : min s.last_extreme r.low * (1 + p.dc_threshold) ≤ r.high)
    (hz : ¬ min s.last_extreme r.low = 0) :
    (stepMaxTrend p s i r).map (fun x => x.trades.length) =
      some (if classifierPassMax p r then s.trades.length + 1 else s.trades.length) := by
  unfold stepMaxTrend
  rw [if_pos ht]
  by_cases hlow : r.low < s.last_extreme
  · rw [if_pos hlow]
    rw [min_eq_right (le_of_lt hlow)] at hcand hz
    have hq := stepMaxDown_entry_count p { s with last_extreme := r.low } i r hp hcand hz
    exact hq
  · rw [if_neg hlow]
    rw [min_eq_left (le_of_not_lt hlow)] at hcand hz
    exact stepMaxDown_entry_count p s i r hp hcand hz

theorem stepEnhDown_entry_flag (p : Params) (u : EnhState) (r : Row) (smaq : ℚ)
    (hp : u.is_trading_paused = false)
    (hcand : u.last_extreme_price * (1 + p.dc_threshold) ≤ r.high) :
    (stepEnhDown p u r smaq).is_position_open =
      (classifierPassEnh p r smaq || u.is_position_open) := by
  unfold stepEnhDown
  rw [if_pos hcand, if_neg (by simp [hp])]
  by_cases hcls : classifierPassEnh p r smaq = true
  · rw [if_pos hcls, hcls]
    rfl
  · rw [if_neg hcls]
    simp only [Bool.not_eq_true] at hcls
    rw [hcls]
    rfl

theorem stepEnhTrend_entry_flag (p : Params) (s : EnhState) (r : Row) (smaq : ℚ)
    (ht : s.current_trend = -1) (hp : s.is_trading_paused = false)
    (hcand : min s.last_extreme_price r.low * (1 + p.dc_threshold) ≤ r.high) :
    (stepEnhTrend p s r smaq).is_position_open =
      (classifierPassEnh p r smaq || s.is_position_open) := by
  unfold stepEnhTrend
  rw [if_pos ht]
  by_cases hlow : r.low < s.last_extreme_price
  · rw [if_pos hlow]
    rw [min_eq_right (le_of_lt hlow)] at hcand
    have hq := stepEnhDown_entry_flag p { s with last_extreme_price := r.low } r smaq hp hcand
    exact hq
  · rw [if_neg hlow]
    rw [min_eq_left (le_of_not_lt hlow)] at hcand
    exact stepEnhDown_entry_flag p s r smaq hp hcand

theorem strictPassMax_iff (p : Params) (r : Row) :
    strictPassMax p r = true ↔
      ((∃ v, r.sma = some v ∧ v < r.high) ∧ r.rsi < p.rsi_overbought ∧
       r.macdsignal < r.macd ∧ r.stoch_d < r.stoch_k ∧ (10 : ℚ) < r.adx) := by
  unfold strictPassMax
  cases hs : r.sma <;> simp [hs, and_assoc]

theorem strictPassEnh_iff (p : Params) (r : Row) (smaq : ℚ) :
    strictPassEnh p r smaq = true ↔
      (smaq < r.high ∧ r.rsi < p.rsi_overbought ∧
       r.macdsignal < r.macd ∧ r.stoch_d < r.stoch_k ∧ (25 : ℚ) < r.adx) := by
  unfold strictPassEnh
  simp [and_assoc]

theorem relaxedPass_iff (p : Params) (r : Row) :
    relaxedPass p r = true ↔
      ((r.sma = none ∨ ∃ v, r.sma = some v ∧ v < r.high) ∧
       r.rsi < p.rsi_overbought ∧ (10 : ℚ) < r.adx) := by
  unfold relaxedPass
  cases hs : r.sma <;> simp [hs, and_assoc]

/-- Claim C1 (amended): with the classifier enabled, a Down-state
reversal candidate opens a position iff the strict tier holds; the tier
requires high>SMA, rsi<rsi_overbought, macd>macdsignal and
stoch_k>stoch_d in both variants, but the ADX floor is 25 only in the
enhanced variant — the Maximize_PnL variant keeps the floor at 10. -/
theorem claim_C1_theorem (p : Params) (r : Row) (i : ℕ) (smaq : ℚ)
    (hcls : useClassifier p = true) :
    (∀ sM : MaxState, sM.current_trend = -1 → sM.is_trading_paused = false →
       min sM.last_extreme r.low * (1 + p.dc_threshold) ≤ r.high →
       ¬ min sM.last_extreme r.low = 0 →
       (stepMaxTrend p sM i r).map (fun x => x.trades.length) =
         some (if strictPassMax p r then sM.trades.length + 1 else sM.trades.length)) ∧
    (strictPassMax p r = true ↔
       ((∃ v, r.sma = some v ∧ v < r.high) ∧ r.rsi < p.rsi_overbought ∧
        r.macdsignal < r.macd ∧ r.stoch_d < r.stoch_k ∧ (10 : ℚ) < r.adx)) ∧
    (∀ sE : EnhState, sE.current_trend = -1 → sE.is_trading_paused = false →
       min sE.last_extreme_price r.low * (1 + p.dc_threshold) ≤ r.high →
       (stepEnhTrend p sE r smaq).is_position_open =
         (strictPassEnh p r smaq || sE.is_position_open)) ∧
    (strictPassEnh p r smaq = true ↔
       (smaq < r.high ∧ r.rsi < p.rsi_overbought ∧
        r.macdsignal < r.macd ∧ r.stoch_d < r.stoch_k ∧ (25 : ℚ) < r.adx)) := by
  have hM : classifierPassMax p r = strictPassMax p r := by
    unfold classifierPassMax
    simp [hcls]
  have hE : ∀ q : ℚ, classifierPassEnh p r q = strictPassEnh p r q := by
    intro q
    unfold classifierPassEnh
    simp [hcls]
  refine ⟨?_, strictPassMax_iff p r, ?_, strictPassEnh_iff p r smaq⟩
  · intro sM ht hp hcand hz
    rw [stepMaxTrend_entry_count p sM i r ht hp hcand hz, hM]
  · intro sE ht hp hcand
    rw [stepEnhTrend_entry_flag p sE r smaq ht hp hcand, hE]

/-- Claim C1 witness: the Maximize_PnL entry conjunct evaluated on a
concrete reversal-candidate bar. -/
theorem claim_C1_witness :
    (stepMaxTrend c1p (initMaxState c1row) 0 c1row).map (fun x => x.trades.length) =
      some (if strictPassMax c1p c1row then (initMaxState c1row).trades.length + 1
            else (initMaxState c1row).trades.length) :=
  (claim_C1_theorem c1p c1row 0 1 (by decide)).1 (initMaxState c1row)
    (by decide) (by decide) (by norm_num [initMaxState, c1row, c1p])
    (by norm_num [initMaxState, c1row])

/-- Claim C4 (amended): with the classifier disabled, the Maximize_PnL
variant opens on a reversal candidate iff the relaxed tier holds ((SMA
undefined or high>SMA) and rsi<rsi_overbought and adx>10); the enhanced
variant applies no confirmation at all — `classifier_pass` is
unconditionally true and every unpaused reversal candidate opens.  So
exactly one tier applies only in the Maximize_PnL variant; the enhanced
variant applies the strict tier or none. -/
theorem claim_C4_theorem (p : Params) (r : Row) (i : ℕ) (smaq : ℚ)
    (hcls : useClassifier p = false) :
    classifierPassMax p r = relaxedPass p r ∧
    classifierPassEnh p r smaq = true ∧
    (∀ sM : MaxState, sM.current_trend = -1 → sM.is_trading_paused = false →
       min sM.last_extreme r.low * (1 + p.dc_threshold) ≤ r.high →
       ¬ min sM.last_extreme r.low = 0 →
       (stepMaxTrend p sM i r).map (fun x => x.trades.length) =
         some (if relaxedPass p r then sM.trades.length + 1 else sM.trades.length)) ∧
    (relaxedPass p r = true ↔
       ((r.sma = none ∨ ∃ v, r.sma = some v ∧ v < r.high) ∧
        r.rsi < p.rsi_overbought ∧ (10 : ℚ) < r.adx)) ∧
    (∀ sE : EnhState, sE.current_trend = -1 → sE.is_trading_paused = false →
       min sE.last_extreme_price r.low * (1 + p.dc_threshold) ≤ r.high →
       (stepEnhTrend p sE r smaq).is_position_open = true) := by
  have hM : classifierPassMax p r = relaxedPass p r := by
    unfold classifierPassMax
    simp [hcls]
  have hE : classifierPassEnh p r smaq = true := by
    unfold classifierPassEnh
    simp [hcls]
  refine ⟨hM, hE, ?_, relaxedPass_iff p r, ?_⟩
  · intro sM ht hp hcand hz
    rw [stepMaxTrend_entry_count p sM i r ht hp hcand hz, hM]
  · intro sE ht hp hcand
    rw [stepEnhTrend_entry_flag p sE r smaq ht hp hcand, hE]
    simp

/-- Claim C4 witness: the enhanced unconditional-entry conjunct evaluated
on a concrete bar failing the relaxed tier. -/
theorem claim_C4_witness :
    (stepEnhTrend c4p (initEnhState c4b) c4b 100).is_position_open = true :=
  (claim_C4_theorem c4p c4b 0 100 (by decide)).2.2.2.2 (initEnhState c4b)
    (by decide) (by decide) (by norm_num [initEnhState, c4b, c4p])

/-- Auxiliary: `trades[-1].update` on a ledger with a known last element
closes exactly that element. -/
theorem updateLast_append (ts : List MaxTrade) (t : MaxTrade) (e : MaxExit) :
    updateLast (ts ++ [t]) e = some (ts ++ [{ t with exit := some e }]) := by
  induction ts with
  | nil => rfl
  | cons a as ih =>
    cases as with
    | nil => rfl
    | cons b bs =>
      simp only [List.cons_append, updateLast, List.append_eq] at ih ⊢
      rw [ih]
      rfl

theorem stepMaxUp_exit (p : Params) (u : MaxState) (i : ℕ) (r : Row)
    (ts : List MaxTrade) (t : MaxTrade)
    (ho : u.is_position_open = true) (hz : ¬ u.entry_price = 0)
    (hts : u.trades = ts ++ [t])
    (hex : r.low ≤ u.last_extreme * (1 - dynamicExitThreshold p
      (max u.max_overshoot ((r.high - u.entry_price) / u.entry_price)))) :
    stepMaxUp p u i r = some { u with
      last_extreme := r.low,
      max_overshoot := max u.max_overshoot ((r.high - u.entry_price) / u.entry_price),
      is_position_open := false,
      current_trend := -1,
      total_pnl := u.total_pnl + (r.low - u.entry_price) * p.volume,
      trades := ts ++ [{ t with exit := some ⟨r.low,
        (r.low - u.entry_price) * p.volume, i⟩ }] } := by
  unfold stepMaxUp
  rw [if_pos ho, if_neg hz]
  dsimp only
  rw [if_pos hex, hts, updateLast_append]

theorem stepEnhUp_exit (p : Params) (u : EnhState) (r : Row) (t : EnhTrade)
    (ho : u.is_position_open = true) (hz : ¬ u.entry_price = 0)
    (htr : u.trade = some t)
    (hex : r.low ≤ u.last_extreme_price * (1 - dynamicExitThreshold p
      (max u.max_overshoot ((r.high - u.entry_price) / u.entry_price)))) :
    stepEnhUp p u r = { u with
      last_extreme_price := r.low,
      max_overshoot := max u.max_overshoot ((r.high - u.entry_price) / u.entry_price),
      is_position_open := false,
      current_trend := -1,
      total_pnl := u.total_pnl + (r.low - u.entry_price) * p.volume,
      trades := u.trades ++ [⟨t.entry_date, t.entry_price,
        (r.low - u.entry_price) * p.volume, some ⟨r.date, r.low⟩⟩],
      trade := some ⟨t.entry_date, t.entry_price,
        (r.low - u.entry_price) * p.volume, some ⟨r.date, r.low⟩⟩ } := by
  unfold stepEnhUp
  rw [if_pos ho]
  dsimp only
  simp only [hz, ne_eq, not_false_eq_true, ite_true, htr, Option.getD_some]
  rw [if_pos hex]

/-- Claim C3 (confirmed): in the Up state with an open position (and a
nonzero entry price, a live trade record, and the gates passed), the
dynamic exit threshold equals dc_threshold*y_value*exp(-max_overshoot),
and when bar.low falls to or below extremum*(1-threshold) — extremum and
max_overshoot freshly updated — both variants close at exit_price=bar.low
with pnl=(exit_price-entry_price)*volume, update the trade record,
transition to Down, reset the extremum to bar.low, and clear the open
flag. -/
theorem claim_C3_theorem (p : Params) (r : Row) (i : ℕ) (smaq : ℚ) :
    (∀ mo : ℚ, dynamicExitThreshold p mo =
        p.dc_threshold * p.y_value * p.expf (-mo)) ∧
    (∀ (sM : MaxState) (ts : List MaxTrade) (t : MaxTrade),
       sM.current_trend = 1 → sM.is_position_open = true → ¬ sM.entry_price = 0 →
       sM.trades = ts ++ [t] →
       r.low ≤ max sM.last_extreme r.high *
         (1 - dynamicExitThreshold p
           (max sM.max_overshoot ((r.high - sM.entry_price) / sM.entry_price))) →
       stepMaxTrend p sM i r = some { sM with
         last_extreme := r.low,
         max_overshoot := max sM.max_overshoot ((r.high - sM.entry_price) / sM.entry_price),
         is_position_open := false,
         current_trend := -1,
         total_pnl := sM.total_pnl + (r.low - sM.entry_price) * p.volume,
         trades := ts ++ [{ t with exit := some ⟨r.low,
           (r.low - sM.entry_price) * p.volume, i⟩ }] }) ∧
    (∀ (sE : EnhState) (t : EnhTrade),
       sE.current_trend = 1 → sE.is_position_open = true → ¬ sE.entry_price = 0 →
       sE.trade = some t →
       r.low ≤ max sE.last_extreme_price r.high *
         (1 - dynamicExitThreshold p
           (max sE.max_overshoot ((r.high - sE.entry_price) / sE.entry_price))) →
       stepEnhTrend p sE r smaq = { sE with
         last_extreme_price := r.low,
         max_overshoot := max sE.max_overshoot ((r.high - sE.entry_price) / sE.entry_price),
         is_position_open := false,
         current_trend := -1,
         total_pnl := sE.total_pnl + (r.low - sE.entry_price) * p.volume,
         trades := sE.trades ++ [⟨t.entry_date, t.entry_price,
           (r.low - sE.entry_price) * p.volume, some ⟨r.date, r.low⟩⟩],
         trade := some ⟨t.entry_date, t.entry_price,
           (r.low - sE.entry_price) * p.volume, some ⟨r.date, r.low⟩⟩ }) := by
  refine ⟨fun mo => rfl, ?_, ?_⟩
  · intro sM ts t ht ho hz hts hex
    have hne : ¬ sM.current_trend = -1 := by rw [ht]; decide
    unfold stepMaxTrend
    rw [if_neg hne]
    by_cases hh : r.high > sM.last_extreme
    · rw [max_eq_right (le_of_lt hh)] at hex
      rw [if_pos hh]
      have hq := stepMaxUp_exit p { sM with last_extreme := r.high } i r ts t ho hz hts hex
      exact hq
    · rw [max_eq_left (le_of_not_lt hh)] at hex
      rw [if_neg hh]
      exact stepMaxUp_exit p sM i r ts t ho hz hts hex
  · intro sE t ht ho hz htr hex
    have hne : ¬ sE.current_trend = -1 := by rw [ht]; decide
    unfold stepEnhTrend
    rw [if_neg hne, if_pos ht]
    by_cases hh : r.high > sE.last_extreme_price
    · rw [max_eq_right (le_of_lt hh)] at hex
      rw [if_pos hh]
      have hq := stepEnhUp_exit p { sE with last_extreme_price := r.high } r t ho hz htr hex
      exact hq
    · rw [max_eq_left (le_of_not_lt hh)] at hex
      rw [if_neg hh]
      exact stepEnhUp_exit p sE r t ho hz htr hex

/-- Claim C3 witness: the Maximize_PnL exit conjunct evaluated on a
concrete open position crossing the trailing stop. -/
theorem claim_C3_witness :
    stepMaxTrend c5p c3s 2 c5b2B = some { c3s with
      last_extreme := c5b2B.low,
      max_overshoot := max c3s.max_overshoot ((c5b2B.high - c3s.entry_price) / c3s.entry_price),
      is_position_open := false,
      current_trend := -1,
      total_pnl := c3s.total_pnl + (c5b2B.low - c3s.entry_price) * c5p.volume,
      trades := [] ++ [{ (⟨102, 1, none⟩ : MaxTrade) with exit := some ⟨c5b2B.low,
        (c5b2B.low - c3s.entry_price) * c5p.volume, 2⟩ }] } :=
  (claim_C3_theorem c5p c5b2B 2 0).2.1 c3s [] ⟨102, 1, none⟩ (by decide) (by decide)
    (by decide) (by rfl)
    (by norm_num [c3s, c5b2B, c5p, dynamicExitThreshold, cexpf, max_self])

/-- Claim C5 (amended): after the last bar, a still-open position is
force-closed at the final bar's close with pnl computed identically and
exit index/date of the final bar — but the resulting Trade record carries
no flag marking it as forced rather than signal-triggered (its fields are
exactly entry/exit price, pnl and index/date, as the counterexample's
identical ledgers show). -/
theorem claim_C5_theorem (p : Params) :
    (∀ (bars : List Row) (s : MaxState) (ts : List MaxTrade) (t : MaxTrade) (blast : Row),
       runMaxLoopState p bars = some s → s.is_position_open = true →
       s.trades = ts ++ [t] → bars.getLast? = some blast →
       runMax p bars = some (s.total_pnl + (blast.close - s.entry_price) * p.volume,
         ts ++ [{ t with exit := some ⟨blast.close,
           (blast.close - s.entry_price) * p.volume, bars.length - 1⟩ }])) ∧
    (∀ (b0 : Row) (rest : List Row) (t : EnhTrade),
       (runEnhState p b0 (b0 :: rest)).is_position_open = true →
       (runEnhState p b0 (b0 :: rest)).trade = some t →
       runEnh p (b0 :: rest) =
         ((runEnhState p b0 (b0 :: rest)).total_pnl +
            ((List.getLastD (b0 :: rest) b0).close -
              (runEnhState p b0 (b0 :: rest)).entry_price) * p.volume,
          (runEnhState p b0 (b0 :: rest)).trades ++ [⟨t.entry_date, t.entry_price,
            ((List.getLastD (b0 :: rest) b0).close -
              (runEnhState p b0 (b0 :: rest)).entry_price) * p.volume,
            some ⟨(List.getLastD (b0 :: rest) b0).date,
              (List.getLastD (b0 :: rest) b0).close⟩⟩])) := by
  constructor
  · intro bars s ts t blast hs ho hts hlast
    unfold runMax
    rw [hs]
    dsimp only
    unfold finalizeMax
    rw [if_pos ho, hlast, hts]
    dsimp only
    rw [updateLast_append]
  · intro b0 rest t ho htr
    unfold runEnh
    dsimp only
    rw [if_pos ho, htr]
    rfl

/-- Claim C5 witness: the Maximize_PnL force-close conjunct evaluated on
the concrete run that ends with an open position. -/
theorem claim_C5_witness :
    runMax c5p [c5b0, c5b1, c5b2A] =
      some (c5sA.total_pnl + (c5b2A.close - c5sA.entry_price) * c5p.volume,
        [] ++ [{ (⟨102, 1, none⟩ : MaxTrade) with exit := some ⟨c5b2A.close,
          (c5b2A.close - c5sA.entry_price) * c5p.volume, [c5b0, c5b1, c5b2A].length - 1⟩ }]) :=
  (claim_C5_theorem c5p).1 [c5b0, c5b1, c5b2A] c5sA [] ⟨102, 1, none⟩ c5b2A
    (by with_unfolding_all rfl) (by rfl) (by rfl) (by rfl)

/-- Claim C9 (amended): on an empty bar sequence the enhanced variant is
an explicit no-op returning zero trades and zero PnL, while the
Maximize_PnL variant raises ValueError in its constructor (modelled
`none`) — a fatal error, not a no-op. -/
theorem claim_C9_theorem (p : Params) :
    runEnh p [] = (0, []) ∧ runMax p [] = none := ⟨rfl, rfl⟩

/-- Claim C8 (amended): the enhanced variant guards both the entry
overshoot and the position overshoot against a zero denominator,
substituting 0; the Maximize_PnL variant guards neither — with a zero
extremum at entry or a zero entry price in an open Up position it raises
ZeroDivisionError (modelled `none`). -/
theorem claim_C8_theorem (p : Params) (r : Row) (smaq : ℚ) :
    (∀ (sM : MaxState) (i : ℕ), sM.current_trend = -1 → sM.is_trading_paused = false →
       min sM.last_extreme r.low * (1 + p.dc_threshold) ≤ r.high →
       classifierPassMax p r = true → min sM.last_extreme r.low = 0 →
       stepMaxTrend p sM i r = none) ∧
    (∀ (sM : MaxState) (i : ℕ), ¬ sM.current_trend = -1 → sM.is_position_open = true →
       sM.entry_price = 0 → stepMaxTrend p sM i r = none) ∧
    (∀ sE : EnhState, sE.current_trend = -1 → sE.is_trading_paused = false →
       min sE.last_extreme_price r.low * (1 + p.dc_threshold) ≤ r.high →
       classifierPassEnh p r smaq = true → min sE.last_extreme_price r.low = 0 →
       (stepEnhTrend p sE r smaq).max_overshoot = max sE.max_overshoot 0) ∧
    (∀ sE : EnhState, sE.current_trend = 1 → sE.is_position_open = true →
       sE.entry_price = 0 →
       (stepEnhTrend p sE r smaq).max_overshoot = max sE.max_overshoot 0) := by
  have hMaxDown : ∀ u : MaxState, u.is_trading_paused = false →
      u.last_extreme * (1 + p.dc_threshold) ≤ r.high →
      classifierPassMax p r = true → u.last_extreme = 0 →
      ∀ i, stepMaxDown p u i r = none := by
    intro u hp hcand hcls hz i
    unfold stepMaxDown
    rw [if_pos hcand, if_neg (by simp [hp]), if_pos hcls, if_pos hz]
  have hEnhDown : ∀ u : EnhState, u.is_trading_paused = false →
      u.last_extreme_price * (1 + p.dc_threshold) ≤ r.high →
      classifierPassEnh p r smaq = true → u.last_extreme_price = 0 →
      (stepEnhDown p u r smaq).max_overshoot = max u.max_overshoot 0 := by
    intro u hp hcand hcls hz
    unfold stepEnhDown
    rw [if_pos hcand, if_neg (by simp [hp]), if_pos hcls]
    dsimp only
    rw [hz]
    simp
  have hEnhUp : ∀ u : EnhState, u.is_position_open = true → u.entry_price = 0 →
      (stepEnhUp p u r).max_overshoot = max u.max_overshoot 0 := by
    intro u ho hz
    unfold stepEnhUp
    rw [if_pos ho]
    dsimp only
    simp only [hz, ne_eq, not_true_eq_false, ite_false]
    split_ifs <;> rfl
  refine ⟨?_, ?_, ?_, ?_⟩
  · intro sM i ht hp hcand hcls hz
    unfold stepMaxTrend
    rw [if_pos ht]
    by_cases hlow : r.low < sM.last_extreme
    · rw [min_eq_right (le_of_lt hlow)] at hcand hz
      rw [if_pos hlow]
      exact hMaxDown { sM with last_extreme := r.low } hp hcand hcls hz i
    · rw [min_eq_left (le_of_not_lt hlow)] at hcand hz
      rw [if_neg hlow]
      exact hMaxDown sM hp hcand hcls hz i
  · intro sM i ht ho hz
    unfold stepMaxTrend
    rw [if_neg ht]
    by_cases hh : r.high > sM.last_extreme
    · rw [if_pos hh]
      unfold stepMaxUp
      rw [if_pos ho, if_pos hz]
    · rw [if_neg hh]
      unfold stepMaxUp
      rw [if_pos ho, if_pos hz]
  · intro sE ht hp hcand hcls hz
    unfold stepEnhTrend
    rw [if_pos ht]
    by_cases hlow : r.low < sE.last_extreme_price
    · rw [min_eq_right (le_of_lt hlow)] at hcand hz
      rw [if_pos hlow]
      have hq := hEnhDown { sE with last_extreme_price := r.low } hp hcand hcls hz
      exact hq
    · rw [min_eq_left (le_of_not_lt hlow)] at hcand hz
      rw [if_neg hlow]
      exact hEnhDown sE hp hcand hcls hz
  · intro sE ht ho hz
    have hne : ¬ sE.current_trend = -1 := by rw [ht]; decide
    unfold stepEnhTrend
    rw [if_neg hne, if_pos ht]
    by_cases hh : r.high > sE.last_extreme_price
    · rw [if_pos hh]
      have hq := hEnhUp { sE with last_extreme_price := r.high } ho hz
      exact hq
    · rw [if_neg hh]
      exact hEnhUp sE ho hz

/-- Claim C8 witness: the Maximize_PnL zero-extremum conjunct evaluated
on a concrete bar with a zero low. -/
theorem claim_C8_witness :
    stepMaxTrend c5p (initMaxState c8b) 0 c8b = none :=
  (claim_C8_theorem c5p c8b 0).1 (initMaxState c8b) 0 (by decide) (by decide)
    (by norm_num [initMaxState, c8b, c5p]) (by with_unfolding_all rfl)
    (by norm_num [initMaxState, c8b])

theorem maxPnlSum_append (a b : List MaxTrade) :
    maxPnlSum (a ++ b) = maxPnlSum a + maxPnlSum b := by
  unfold maxPnlSum
  rw [List.map_append, List.sum_append]

theorem maxPnlSum_single (t : MaxTrade) : maxPnlSum [t] = maxPnlOf t := by
  simp [maxPnlSum]

theorem maxClosedOK_append (p : Params) (a : List MaxTrade) (t : MaxTrade) (e : MaxExit)
    (ha : maxClosedOK p a) (he : e.pnl = (e.exit_price - t.entry_price) * p.volume) :
    maxClosedOK p (a ++ [{ t with exit := some e }]) := by
  intro u hu
  rcases List.mem_append.mp hu with h1 | h2
  · exact ha u h1
  · rw [List.mem_singleton.mp h2]
    exact ⟨e, rfl, he⟩

theorem maxInv_down (p : Params) (u : MaxState) (i : ℕ) (r : Row) (s' : MaxState)
    (hinv : MaxInv p u) (ho : u.is_position_open = false)
    (h : stepMaxDown p u i r = some s') : MaxInv p s' := by
  obtain ⟨h1, h2, h3, h4⟩ := hinv
  have hcl := h3 ho
  unfold stepMaxDown at h
  repeat' split at h
  all_goals try exact Option.noConfusion h
  all_goals injection h with h; subst h
  all_goals try exact ⟨h1, h2, h3, h4⟩
  refine ⟨?_, ?_, ?_, ?_⟩
  · intro _
    rfl
  · intro _
    exact ⟨u.trades, _, rfl, rfl, rfl, hcl⟩
  · intro hx
    simp at hx
  · dsimp only
    rw [maxPnlSum_append, maxPnlSum_single]
    simpa [maxPnlOf] using h4

theorem maxInv_up (p : Params) (u : MaxState) (i : ℕ) (r : Row) (s' : MaxState)
    (hinv : MaxInv p u) (h : stepMaxUp p u i r = some s') : MaxInv p s' := by
  obtain ⟨h1, h2, h3, h4⟩ := hinv
  unfold stepMaxUp at h
  by_cases copen : u.is_position_open = true
  · rw [if_pos copen] at h
    obtain ⟨ts, t, hts, hte, htp, hcl⟩ := h2 copen
    by_cases cz : u.entry_price = 0
    · rw [if_pos cz] at h
      exact Option.noConfusion h
    · rw [if_neg cz] at h
      dsimp only at h
      have h4' : u.total_pnl = maxPnlSum ts := by
        rw [hts, maxPnlSum_append, maxPnlSum_single] at h4
        simpa [maxPnlOf, hte] using h4
      split at h
      · rw [hts, updateLast_append] at h
        dsimp only at h
        injection h with h
        subst h
        refine ⟨?_, ?_, ?_, ?_⟩
        · intro hx
          simp at hx
        · intro hx
          simp at hx
        · intro _
          exact maxClosedOK_append p ts t _ hcl (by rw [htp])
        · dsimp only
          rw [maxPnlSum_append, maxPnlSum_single, h4']
          simp [maxPnlOf]
      · injection h with h
        subst h
        exact ⟨h1, h2, h3, h4⟩
  · rw [if_neg copen] at h
    injection h with h
    subst h
    exact ⟨h1, h2, h3, h4⟩

theorem maxInv_stepTrend (p : Params) (s : MaxState) (i : ℕ) (r : Row) (s' : MaxState)
    (hinv : MaxInv p s) (h : stepMaxTrend p s i r = some s') : MaxInv p s' := by
  unfold stepMaxTrend at h
  by_cases c1 : s.current_trend = -1
  · rw [if_pos c1] at h
    have ho : s.is_position_open = false := by
      cases hop : s.is_position_open
      · rfl
      · rw [hinv.1 hop] at c1
        exact absurd c1 (by decide)
    by_cases hlow : r.low < s.last_extreme
    · rw [if_pos hlow] at h
      exact maxInv_down p { s with last_extreme := r.low } i r s' hinv ho h
    · rw [if_neg hlow] at h
      exact maxInv_down p s i r s' hinv ho h
  · rw [if_neg c1] at h
    by_cases hh : r.high > s.last_extreme
    · rw [if_pos hh] at h
      exact maxInv_up p { s with last_extreme := r.high } i r s' hinv h
    · rw [if_neg hh] at h
      exact maxInv_up p s i r s' hinv h

theorem maxInv_step (p : Params) (s : MaxState) (i : ℕ) (r : Row) (s' : MaxState)
    (hinv : MaxInv p s) (h : stepMax p s i r = some s') : MaxInv p s' := by
  unfold stepMax at h
  by_cases hv : useVolatilityFilter p = true
  · rw [if_pos hv] at h
    by_cases ha : r.atr > p.volatility_threshold
    · rw [if_pos ha] at h
      injection h with h
      subst h
      exact hinv
    · rw [if_neg ha] at h
      exact maxInv_stepTrend p { s with is_trading_paused := false } i r s' hinv h
  · rw [if_neg hv] at h
    exact maxInv_stepTrend p s i r s' hinv h

theorem maxInv_runLoop (p : Params) : ∀ (bars : List Row) (s : MaxState) (i : ℕ)
    (s' : MaxState), MaxInv p s → runMaxLoop p s i bars = some s' → MaxInv p s' := by
  intro bars
  induction bars with
  | nil =>
    intro s i s' hinv h
    injection h with h
    subst h
    exact hinv
  | cons r rest ih =>
    intro s i s' hinv h
    unfold runMaxLoop at h
    split at h
    · exact Option.noConfusion h
    · next s2 hstep => exact ih s2 (i + 1) s' (maxInv_step p s i r s2 hinv hstep) h

theorem maxInv_init (p : Params) (b0 : Row) : MaxInv p (initMaxState b0) := by
  refine ⟨?_, ?_, ?_, rfl⟩
  · intro hx
    simp [initMaxState] at hx
  · intro hx
    simp [initMaxState] at hx
  · intro _ t ht
    exact absurd ht (List.not_mem_nil t)

theorem enhPnlSum_append (a b : List EnhTrade) :
    enhPnlSum (a ++ b) = enhPnlSum a + enhPnlSum b := by
  unfold enhPnlSum
  rw [List.map_append, List.sum_append]

theorem enhPnlSum_single (t : EnhTrade) : enhPnlSum [t] = t.pnl := by
  simp [enhPnlSum]

theorem enhClosedOK_append (p : Params) (a : List EnhTrade) (t : EnhTrade) (e : EnhExit)
    (ha : enhClosedOK p a) (hp : t.pnl = (e.exit_price - t.entry_price) * p.volume)
    (he : t.exit = some e) : enhClosedOK p (a ++ [t]) := by
  intro u hu
  rcases List.mem_append.mp hu with h1 | h2
  · exact ha u h1
  · rw [List.mem_singleton.mp h2]
    exact ⟨e, he, hp⟩

theorem enhInv_down (p : Params) (u : EnhState) (r : Row) (smaq : ℚ)
    (hinv : EnhInv p u) : EnhInv p (stepEnhDown p u r smaq) := by
  obtain ⟨h1, h2, h3, h4⟩ := hinv
  unfold stepEnhDown
  repeat' split
  all_goals first
    | exact ⟨h1, h2, h3, h4⟩
    | exact ⟨fun _ => rfl, fun _ => ⟨_, rfl, rfl⟩, h3, h4⟩

theorem enhInv_up (p : Params) (u : EnhState) (r : Row)
    (hinv : EnhInv p u) : EnhInv p (stepEnhUp p u r) := by
  obtain ⟨h1, h2, h3, h4⟩ := hinv
  unfold stepEnhUp
  by_cases copen : u.is_position_open = true
  · rw [if_pos copen]
    obtain ⟨t, htr, htp⟩ := h2 copen
    dsimp only
    rw [htr, Option.getD_some]
    have hX : ∀ mo' : ℚ, EnhInv p
        { current_trend := -1, last_extreme_price := r.low, max_overshoot := mo',
          is_position_open := false, entry_price := u.entry_price,
          is_trading_paused := u.is_trading_paused,
          trade := some ⟨t.entry_date, t.entry_price, (r.low - u.entry_price) * p.volume,
            some ⟨r.date, r.low⟩⟩,
          total_pnl := u.total_pnl + (r.low - u.entry_price) * p.volume,
          trades := u.trades ++ [⟨t.entry_date, t.entry_price,
            (r.low - u.entry_price) * p.volume, some ⟨r.date, r.low⟩⟩] } := by
      intro mo'
      refine ⟨?_, ?_, ?_, ?_⟩
      · intro hx
        exact absurd hx (by simp)
      · intro hx
        exact absurd hx (by simp)
      · refine enhClosedOK_append p u.trades _ ⟨r.date, r.low⟩ h3 ?_ rfl
        dsimp only
        rw [htp]
      · dsimp only
        rw [enhPnlSum_append, enhPnlSum_single, h4]
    split <;> split
    all_goals first
      | exact hX _
      | exact ⟨h1, fun _ => ⟨t, rfl, htp⟩, h3, h4⟩
  · rw [if_neg copen]
    exact ⟨h1, h2, h3, h4⟩

theorem enhInv_stepTrend (p : Params) (s : EnhState) (r : Row) (smaq : ℚ)
    (hinv : EnhInv p s) : EnhInv p (stepEnhTrend p s r smaq) := by
  unfold stepEnhTrend
  by_cases c1 : s.current_trend = -1
  · rw [if_pos c1]
    by_cases hlow : r.low < s.last_extreme_price
    · rw [if_pos hlow]
      exact enhInv_down p { s with last_extreme_price := r.low } r smaq hinv
    · rw [if_neg hlow]
      exact enhInv_down p s r smaq hinv
  · rw [if_neg c1]
    by_cases c2 : s.current_trend = 1
    · rw [if_pos c2]
      by_cases hh : r.high > s.last_extreme_price
      · rw [if_pos hh]
        exact enhInv_up p { s with last_extreme_price := r.high } r hinv
      · rw [if_neg hh]
        exact enhInv_up p s r hinv
    · rw [if_neg c2]
      exact hinv

theorem enhInv_volGate (p : Params) (s : EnhState) (r : Row)
    (hinv : EnhInv p s) : EnhInv p (volGate p s r) := by
  unfold volGate
  dsimp only
  repeat' split
  all_goals exact hinv

theorem enhInv_step (p : Params) (s : EnhState) (r : Row)
    (hinv : EnhInv p s) : EnhInv p (stepEnh p s r) := by
  unfold stepEnh
  cases hs : r.sma
  · exact hinv
  · exact enhInv_stepTrend p (volGate p s r) r _ (enhInv_volGate p s r hinv)

theorem enhInv_fold (p : Params) : ∀ (bars : List Row) (s : EnhState),
    EnhInv p s → EnhInv p (List.foldl (stepEnh p) s bars) := by
  intro bars
  induction bars with
  | nil => intro s hinv; exact hinv
  | cons r rest ih =>
    intro s hinv
    exact ih (stepEnh p s r) (enhInv_step p s r hinv)

theorem enhInv_init (p : Params) (b0 : Row) : EnhInv p (initEnhState b0) := by
  refine ⟨?_, ?_, ?_, rfl⟩
  · intro hx
    simp [initEnhState] at hx
  · intro hx
    simp [initEnhState] at hx
  · intro t ht
    exact absurd ht (List.not_mem_nil t)

theorem maxOpenCount_append (a b : List MaxTrade) :
    maxOpenCount (a ++ b) = maxOpenCount a + maxOpenCount b := by
  unfold maxOpenCount
  rw [List.filter_append, List.length_append]

theorem maxOpenCount_closed (p : Params) (ts : List MaxTrade)
    (h : maxClosedOK p ts) : maxOpenCount ts = 0 := by
  unfold maxOpenCount
  rw [List.length_eq_zero, List.filter_eq_nil_iff]
  intro t ht
  obtain ⟨e, he, _⟩ := h t ht
  simp [he]

/-- Claim C6 (confirmed): at every point of a run — after any prefix of
the bar sequence — the Maximize_PnL ledger contains at most one open
trade, exactly one iff the position flag is set, and every trade in the
enhanced ledger is already closed (its open position lives only in the
flag and the pending trade dict), so no two entries occur without an
intervening exit. -/
theorem claim_C6_theorem (p : Params) (b0 : Row) (rest pre suf : List Row)
    (hsplit : b0 :: rest = pre ++ suf) :
    (∀ s : MaxState, runMaxLoop p (initMaxState b0) 0 pre = some s →
       maxOpenCount s.trades = (if s.is_position_open = true then 1 else 0) ∧
       maxOpenCount s.trades ≤ 1) ∧
    (∀ t ∈ (runEnhState p b0 pre).trades, t.exit.isSome = true) := by
  constructor
  · intro s hs
    obtain ⟨h1, h2, h3, h4⟩ :=
      maxInv_runLoop p pre (initMaxState b0) 0 s (maxInv_init p b0) hs
    have hcount : maxOpenCount s.trades = (if s.is_position_open = true then 1 else 0) := by
      by_cases ho : s.is_position_open = true
      · obtain ⟨ts, t, hts, hte, _, hcl⟩ := h2 ho
        rw [if_pos ho, hts, maxOpenCount_append, maxOpenCount_closed p ts hcl]
        simp [maxOpenCount, hte]
      · have ho' : s.is_position_open = false := by
          cases hop : s.is_position_open
          · rfl
          · exact absurd hop ho
        rw [if_neg ho, maxOpenCount_closed p s.trades (h3 ho')]
    refine ⟨hcount, ?_⟩
    rw [hcount]
    split_ifs <;> simp
  · intro t ht
    obtain ⟨e, he, _⟩ :=
      (enhInv_fold p pre (initEnhState b0) (enhInv_init p b0)).2.2.1 t ht
    rw [he]
    rfl

/-- Claim C6 witness: the ledger open-count conjunct evaluated on the
concrete mid-run state holding one open position. -/
theorem claim_C6_witness :
    maxOpenCount c5sA.trades = (if c5sA.is_position_open = true then 1 else 0) ∧
    maxOpenCount c5sA.trades ≤ 1 :=
  (claim_C6_theorem c5p c5b0 [c5b1] [c5b0, c5b1] [] (by rfl)).1 c5sA
    (by with_unfolding_all rfl)

/-- Auxiliary: the value `run_backtest` returns when the loop ends with
an open position (force-close path). -/
theorem runMax_eq_of_open (p : Params) (bars : List Row) (s : MaxState)
    (ts : List MaxTrade) (t : MaxTrade) (blast : Row)
    (hs : runMaxLoopState p bars = some s) (ho : s.is_position_open = true)
    (hts : s.trades = ts ++ [t]) (hlast : bars.getLast? = some blast) :
    runMax p bars = some (s.total_pnl + (blast.close - s.entry_price) * p.volume,
      ts ++ [{ t with exit := some ⟨blast.close,
        (blast.close - s.entry_price) * p.volume, bars.length - 1⟩ }]) := by
  unfold runMax
  rw [hs]
  dsimp only
  unfold finalizeMax
  rw [if_pos ho, hlast, hts]
  dsimp only
  rw [updateLast_append]

/-- Auxiliary: the value `run_backtest` returns when the loop ends with
no open position. -/
theorem runMax_eq_of_closed (p : Params) (bars : List Row) (s : MaxState)
    (hs : runMaxLoopState p bars = some s) (ho : s.is_position_open = false) :
    runMax p bars = some (s.total_pnl, s.trades) := by
  unfold runMax
  rw [hs]
  dsimp only
  unfold finalizeMax
  rw [if_neg (by simp [ho])]

/-- Claim C7 (confirmed): for every run of either variant, the returned
total PnL equals the sum of the pnl of the trades in the returned ledger,
every trade in that ledger is closed with pnl exactly
(exit_price-entry_price)*volume, and no open trade persists past
end-of-run. -/
theorem claim_C7_theorem (p : Params) :
    (∀ (bars : List Row) (total : ℚ) (ts : List MaxTrade),
       runMax p bars = some (total, ts) →
       total = maxPnlSum ts ∧ maxClosedOK p ts) ∧
    (∀ bars : List Row, (runEnh p bars).1 = enhPnlSum (runEnh p bars).2 ∧
       enhClosedOK p (runEnh p bars).2) := by
  constructor
  · intro bars total ts h
    cases hs : runMaxLoopState p bars with
    | none =>
      unfold runMax at h
      rw [hs] at h
      exact Option.noConfusion h
    | some s =>
      have hinv : MaxInv p s := by
        cases bars with
        | nil => exact Option.noConfusion hs
        | cons b0 rest =>
          unfold runMaxLoopState at hs
          exact maxInv_runLoop p (b0 :: rest) (initMaxState b0) 0 s (maxInv_init p b0) hs
      obtain ⟨h1, h2, h3, h4⟩ := hinv
      by_cases ho : s.is_position_open = true
      · obtain ⟨ts0, t, hts, hte, htp, hcl⟩ := h2 ho
        have hlast : ∃ blast, bars.getLast? = some blast := by
          cases bars with
          | nil => exact Option.noConfusion hs
          | cons b0 rest => exact ⟨_, List.getLast?_eq_getLast _ (by simp)⟩
        obtain ⟨blast, hbl⟩ := hlast
        rw [runMax_eq_of_open p bars s ts0 t blast hs ho hts hbl] at h
        injection h with h
        rw [Prod.mk.injEq] at h
        obtain ⟨h5, h6⟩ := h
        subst h5
        subst h6
        have h4' : s.total_pnl = maxPnlSum ts0 := by
          rw [hts, maxPnlSum_append, maxPnlSum_single] at h4
          simpa [maxPnlOf, hte] using h4
        constructor
        · rw [maxPnlSum_append, maxPnlSum_single, h4']
          simp [maxPnlOf]
        · exact maxClosedOK_append p ts0 t _ hcl (by rw [htp])
      · have ho' : s.is_position_open = false := by
          cases hop : s.is_position_open
          · rfl
          · exact absurd hop ho
        rw [runMax_eq_of_closed p bars s hs ho'] at h
        injection h with h
        rw [Prod.mk.injEq] at h
        obtain ⟨h5, h6⟩ := h
        subst h5
        subst h6
        exact ⟨h4, h3 ho'⟩
  · intro bars
    cases bars with
    | nil => exact ⟨rfl, fun t ht => absurd ht (List.not_mem_nil t)⟩
    | cons b0 rest =>
      obtain ⟨h1, h2, h3, h4⟩ :=
        show EnhInv p (runEnhState p b0 (b0 :: rest)) from
          enhInv_fold p (b0 :: rest) (initEnhState b0) (enhInv_init p b0)
      unfold runEnh
      dsimp only
      by_cases ho : (runEnhState p b0 (b0 :: rest)).is_position_open = true
      · rw [if_pos ho]
        obtain ⟨t, htr, htp⟩ := h2 ho
        rw [htr, Option.getD_some]
        dsimp only
        constructor
        · rw [enhPnlSum_append, enhPnlSum_single]
          dsimp only
          rw [h4]
        · refine enhClosedOK_append p _ _
            ⟨(List.getLastD (b0 :: rest) b0).date, (List.getLastD (b0 :: rest) b0).close⟩
            h3 ?_ rfl
          dsimp only
          rw [htp]
      · rw [if_neg ho]
        exact ⟨h4, h3⟩

/-- Claim C7 witness: the Maximize_PnL conjunct evaluated on a concrete
three-bar run with one signal-closed trade. -/
theorem claim_C7_witness :
    (-52 : ℚ) = maxPnlSum [⟨102, 1, some ⟨50, -52, 2⟩⟩] ∧
    maxClosedOK c5p [⟨102, 1, some ⟨50, -52, 2⟩⟩] :=
  (claim_C7_theorem c5p).1 [c5b0, c5b1, c5b2B] (-52) _ (by with_unfolding_all rfl)

theorem stepMaxDown_mo (p : Params) (u : MaxState) (i : ℕ) (r : Row) (s' : MaxState)
    (h : stepMaxDown p u i r = some s') : u.max_overshoot ≤ s'.max_overshoot := by
  unfold stepMaxDown at h
  repeat' split at h
  all_goals try exact Option.noConfusion h
  all_goals injection h with h; subst h
  all_goals first
    | exact le_refl _
    | exact le_max_left _ _

theorem stepMaxUp_mo (p : Params) (u : MaxState) (i : ℕ) (r : Row) (s' : MaxState)
    (h : stepMaxUp p u i r = some s') : u.max_overshoot ≤ s'.max_overshoot := by
  unfold stepMaxUp at h
  dsimp only at h
  repeat' split at h
  all_goals try exact Option.noConfusion h
  all_goals injection h with h; subst h
  all_goals first
    | exact le_refl _
    | exact le_max_left _ _

theorem stepMaxTrend_mo (p : Params) (s : MaxState) (i : ℕ) (r : Row) (s' : MaxState)
    (h : stepMaxTrend p s i r = some s') : s.max_overshoot ≤ s'.max_overshoot := by
  unfold stepMaxTrend at h
  by_cases c1 : s.current_trend = -1
  · rw [if_pos c1] at h
    by_cases hlow : r.low < s.last_extreme
    · rw [if_pos hlow] at h
      have hq := stepMaxDown_mo p { s with last_extreme := r.low } i r s' h
      exact hq
    · rw [if_neg hlow] at h
      exact stepMaxDown_mo p s i r s' h
  · rw [if_neg c1] at h
    by_cases hh : r.high > s.last_extreme
    · rw [if_pos hh] at h
      have hq := stepMaxUp_mo p { s with last_extreme := r.high } i r s' h
      exact hq
    · rw [if_neg hh] at h
      exact stepMaxUp_mo p s i r s' h

theorem stepMax_mo (p : Params) (s : MaxState) (i : ℕ) (r : Row) (s' : MaxState)
    (h : stepMax p s i r = some s') : s.max_overshoot ≤ s'.max_overshoot := by
  unfold stepMax at h
  by_cases hv : useVolatilityFilter p = true
  · rw [if_pos hv] at h
    by_cases ha : r.atr > p.volatility_threshold
    · rw [if_pos ha] at h
      injection h with h
      subst h
      exact le_refl _
    · rw [if_neg ha] at h
      have hq := stepMaxTrend_mo p { s with is_trading_paused := false } i r s' h
      exact hq
  · rw [if_neg hv] at h
    exact stepMaxTrend_mo p s i r s' h

theorem runMaxLoop_mo (p : Params) : ∀ (bars : List Row) (s : MaxState) (i : ℕ)
    (s' : MaxState), runMaxLoop p s i bars = some s' →
    s.max_overshoot ≤ s'.max_overshoot := by
  intro bars
  induction bars with
  | nil =>
    intro s i s' h
    injection h with h
    subst h
    exact le_refl _
  | cons r rest ih =>
    intro s i s' h
    unfold runMaxLoop at h
    split at h
    · exact Option.noConfusion h
    · next s2 hstep =>
        exact le_trans (stepMax_mo p s i r s2 hstep) (ih s2 (i + 1) s' h)

theorem stepEnhDown_mo (p : Params) (u : EnhState) (r : Row) (smaq : ℚ) :
    u.max_overshoot ≤ (stepEnhDown p u r smaq).max_overshoot := by
  unfold stepEnhDown
  repeat' split
  all_goals first
    | exact le_refl _
    | exact le_max_left _ _

theorem stepEnhUp_mo (p : Params) (u : EnhState) (r : Row) :
    u.max_overshoot ≤ (stepEnhUp p u r).max_overshoot := by
  unfold stepEnhUp
  dsimp only
  repeat' split
  all_goals first
    | exact le_refl _
    | exact le_max_left _ _

theorem stepEnhTrend_mo (p : Params) (s : EnhState) (r : Row) (smaq : ℚ) :
    s.max_overshoot ≤ (stepEnhTrend p s r smaq).max_overshoot := by
  unfold stepEnhTrend
  by_cases c1 : s.current_trend = -1
  · rw [if_pos c1]
    by_cases hlow : r.low < s.last_extreme_price
    · rw [if_pos hlow]
      have hq := stepEnhDown_mo p { s with last_extreme_price := r.low } r smaq
      exact hq
    · rw [if_neg hlow]
      exact stepEnhDown_mo p s r smaq
  · rw [if_neg c1]
    by_cases c2 : s.current_trend = 1
    · rw [if_pos c2]
      by_cases hh : r.high > s.last_extreme_price
      · rw [if_pos hh]
        have hq := stepEnhUp_mo p { s with last_extreme_price := r.high } r
        exact hq
      · rw [if_neg hh]
        exact stepEnhUp_mo p s r
    · rw [if_neg c2]

theorem volGate_mo (p : Params) (s : EnhState) (r : Row) :
    (volGate p s r).max_overshoot = s.max_overshoot := by
  unfold volGate
  dsimp only
  repeat' split
  all_goals rfl

theorem stepEnh_mo (p : Params) (s : EnhState) (r : Row) :
    s.max_overshoot ≤ (stepEnh p s r).max_overshoot := by
  unfold stepEnh
  cases hs : r.sma
  · exact le_refl _
  · calc s.max_overshoot = (volGate p s r).max_overshoot := (volGate_mo p s r).symm
      _ ≤ _ := stepEnhTrend_mo p (volGate p s r) r _

theorem foldEnh_mo (p : Params) : ∀ (bars : List Row) (s : EnhState),
    s.max_overshoot ≤ (List.foldl (stepEnh p) s bars).max_overshoot := by
  intro bars
  induction bars with
  | nil => intro s; exact le_refl _
  | cons r rest ih =>
    intro s
    exact le_trans (stepEnh_mo p s r) (ih (stepEnh p s r))

/-- Claim C10 (confirmed): max_overshoot starts at the floor 0.0001 in
both variants, never decreases across any step or any whole run — in
particular it is not reset when a trade closes or a new Up leg begins —
and, for nonnegative dc_threshold and y_value and a monotone exponential,
a later (larger) max_overshoot yields a dynamic exit threshold at most
any earlier one. -/
theorem claim_C10_theorem (p : Params) :
    (∀ b0 : Row, (initMaxState b0).max_overshoot = 1 / 10000) ∧
    (∀ b0 : Row, (initEnhState b0).max_overshoot = 1 / 10000) ∧
    (∀ (s : MaxState) (i : ℕ) (r : Row) (s' : MaxState),
       stepMax p s i r = some s' → s.max_overshoot ≤ s'.max_overshoot) ∧
    (∀ (s : EnhState) (r : Row), s.max_overshoot ≤ (stepEnh p s r).max_overshoot) ∧
    (∀ (bars : List Row) (s : MaxState) (i : ℕ) (s' : MaxState),
       runMaxLoop p s i bars = some s' → s.max_overshoot ≤ s'.max_overshoot) ∧
    (∀ (bars : List Row) (s : EnhState),
       s.max_overshoot ≤ (List.foldl (stepEnh p) s bars).max_overshoot) ∧
    (0 ≤ p.dc_threshold → 0 ≤ p.y_value →
       (∀ x y : ℚ, x ≤ y → p.expf x ≤ p.expf y) →
       ∀ a b : ℚ, a ≤ b → dynamicExitThreshold p b ≤ dynamicExitThreshold p a) := by
  refine ⟨fun b0 => rfl, fun b0 => rfl, ?_, ?_, ?_, ?_, ?_⟩
  · intro s i r s' h
    exact stepMax_mo p s i r s' h
  · intro s r
    exact stepEnh_mo p s r
  · intro bars s i s' h
    exact runMaxLoop_mo p bars s i s' h
  · intro bars s
    exact foldEnh_mo p bars s
  · intro hdc hy hexp a b hab
    unfold dynamicExitThreshold
    exact mul_le_mul_of_nonneg_left (hexp (-b) (-a) (neg_le_neg hab)) (mul_nonneg hdc hy)

/-- Claim C10 witness: threshold antitonicity and per-step monotonicity
evaluated at a concrete configuration and entry step. -/
theorem claim_C10_witness :
    dynamicExitThreshold c1p 1 ≤ dynamicExitThreshold c1p 0 ∧
    (initMaxState c1row).max_overshoot ≤ c1sAfter.max_overshoot :=
  ⟨(claim_C10_theorem c1p).2.2.2.2.2.2 (by norm_num [c1p]) (by norm_num [c1p])
      (fun x y _ => le_of_eq rfl) 0 1 (by norm_num),
    (claim_C10_theorem c1p).2.2.1 (initMaxState c1row) 0 c1row c1sAfter
      (by with_unfolding_all rfl)⟩
